import Mathlib

/-!
TargetConfigReconciler: the control loop of the kube-scheduler operator.

A shallow embedding of `pkg/operator/target_config_reconciler.go`.

Every function of the Go file is a pure Lean function that returns, next to
its Go result, the list of calls it made on its external collaborators (the
operator-config client, the domain reconcile function, the work queue, the
loggers), in program order.  What a collaborator answers during one cycle is
an input of the function.
-/

namespace Operator

/-! ## Data model -/

/-- Go `error` value; `msg` is what `err.Error()` returns. -/
structure GoError where
  msg : String
deriving DecidableEq, Repr

/-- The `operatorv1.ManagementState` type is a Go string type. -/
abbrev ManagementState := String

/-- Constant `operatorv1.Managed`. -/
def Managed : ManagementState := "Managed"

/-- Constant `operatorv1.Unmanaged`. -/
def Unmanaged : ManagementState := "Unmanaged"

/-- Constant `operatorv1.Removed`. -/
def Removed : ManagementState := "Removed"

/-- Constant `operatorv1.OperatorStatusTypeDegraded`. -/
def OperatorStatusTypeDegraded : String := "Degraded"

/-- Constant `operatorv1.ConditionTrue`. -/
def ConditionTrue : String := "True"

/-- The `operatorv1.OperatorCondition` struct. -/
structure OperatorCondition where
  Type_ : String
  Status : String
  LastTransitionTime : Nat
  Reason : String
  Message : String
deriving DecidableEq, Repr

/-- The `Spec` of the operator config: the management state and the remaining fields. -/
structure KubeSchedulerSpec where
  ManagementState : ManagementState
  Rest : String
deriving DecidableEq, Repr

/-- The `Status` of the operator config: the condition list and the remaining fields. -/
structure KubeSchedulerStatus where
  Conditions : List OperatorCondition
  Rest : String
deriving DecidableEq, Repr

/-- The `operatorv1.KubeScheduler` object (the target object).  Equality of two
values stands for `reflect.DeepEqual` of the two pointed-to objects, and a
value is its own `DeepCopy`. -/
structure KubeScheduler where
  Name : String
  ResourceVersion : String
  Spec : KubeSchedulerSpec
  Status : KubeSchedulerStatus
deriving DecidableEq, Repr

/-- Calls made on the external collaborators, as they appear in the Go file. -/
inductive Call where
  /-- c.operatorConfigClient.KubeSchedulers().Get(name, ...) -/
  | Get (name : String)
  /-- createTargetConfigReconciler_v410_00_to_latest(c, c.eventRecorder, operatorConfig) -/
  | createTargetConfigReconciler_v410_00_to_latest (operatorConfig : KubeScheduler)
  /-- c.operatorConfigClient.KubeSchedulers().UpdateStatus(operatorConfig) -/
  | UpdateStatus (operatorConfig : KubeScheduler)
  /-- klog.Error(err) -/
  | klogError (err : GoError)
  /-- klog.Infof(msg) -/
  | klogInfof (msg : String)
  /-- utilruntime.HandleError(err) -/
  | HandleError (err : GoError)
  /-- c.sync() -/
  | sync
  /-- c.queue.Get() -/
  | queueGet
  /-- c.queue.Add(key) -/
  | queueAdd (key : String)
  /-- c.queue.Forget(key) -/
  | queueForget (key : String)
  /-- c.queue.Done(key) -/
  | queueDone (key : String)
  /-- c.queue.AddRateLimited(key) -/
  | queueAddRateLimited (key : String)
  /-- c.queue.ShutDown() -/
  | queueShutDown
  /-- go wait.Until(c.runWorker, time.Second, stopCh) -/
  | goRunWorker
  /-- Receive on stopCh. -/
  | recvStopCh
deriving DecidableEq, Repr

/-- What the external collaborators answer during one reconcile cycle.

* `Get`: the operator-config client's `Get`;
* `UpdateStatus`: the operator-config client's `UpdateStatus`;
* `createTargetConfigReconciler_v410_00_to_latest`: the domain reconcile
  function; it receives the object by pointer, so it returns the object as it
  is after the call, next to `requeue` and `err`;
* `SetOperatorCondition`: `v1helpers.SetOperatorCondition` on the condition list. -/
structure TargetConfigReconciler where
  Get : String → Except GoError KubeScheduler
  UpdateStatus : KubeScheduler → Except GoError KubeScheduler
  createTargetConfigReconciler_v410_00_to_latest :
    KubeScheduler → KubeScheduler × Bool × Option GoError
  SetOperatorCondition : List OperatorCondition → OperatorCondition → List OperatorCondition

/-! ## sync -/

/-- Result of `sync`: the returned error and the calls made. -/
structure SyncResult where
  err : Option GoError
  calls : List Call
deriving DecidableEq, Repr

/-- The error of `fmt.Errorf("synthetic requeue request")`. -/
def syntheticRequeue : GoError := ⟨"synthetic requeue request"⟩

/-- The condition written by `sync` when the domain function failed. -/
def degradedCondition (err : GoError) : OperatorCondition :=
  { Type_ := OperatorStatusTypeDegraded
    Status := ConditionTrue
    LastTransitionTime := 0
    Reason := "StatusUpdateError"
    Message := err.msg }

/-- The statement `v1helpers.SetOperatorCondition(&operatorConfig.Status.Conditions, ...)`
of `sync`: the object with the Degraded condition set from `err`. -/
def setDegradedCondition (c : TargetConfigReconciler) (operatorConfig : KubeScheduler)
    (err : GoError) : KubeScheduler :=
  { operatorConfig with
    Status :=
      { operatorConfig.Status with
        Conditions :=
          c.SetOperatorCondition operatorConfig.Status.Conditions (degradedCondition err) } }

/-- The method `TargetConfigReconciler.sync`. -/
def sync (c : TargetConfigReconciler) : SyncResult :=
  match c.Get "cluster" with
  | .error err => ⟨some err, [.Get "cluster"]⟩
  | .ok operatorConfig =>
    let operatorConfigOriginal := operatorConfig
    if operatorConfig.Spec.ManagementState = Unmanaged then
      ⟨none, [.Get "cluster"]⟩
    else if operatorConfig.Spec.ManagementState = Removed then
      ⟨none, [.Get "cluster"]⟩
    else
      match c.createTargetConfigReconciler_v410_00_to_latest operatorConfig with
      | (operatorConfigAfter, requeue, err) =>
        let made : List Call :=
          [.Get "cluster", .createTargetConfigReconciler_v410_00_to_latest operatorConfig]
        if requeue && err.isNone then
          ⟨some syntheticRequeue, made⟩
        else
          match err with
          | some err =>
            if operatorConfigOriginal ≠ operatorConfigAfter then
              let updated := setDegradedCondition c operatorConfigAfter err
              match c.UpdateStatus updated with
              | .error updateError =>
                ⟨some err, made ++ [.UpdateStatus updated, .klogError updateError]⟩
              | .ok _ => ⟨some err, made ++ [.UpdateStatus updated]⟩
            else
              ⟨some err, made⟩
          | none => ⟨none, made⟩

/-! ## processNextWorkItem and runWorker -/

/-- Result of `processNextWorkItem`: the returned boolean and the calls made. -/
structure WorkItemResult where
  ret : Bool
  calls : List Call
deriving DecidableEq, Repr

/-- The method `TargetConfigReconciler.processNextWorkItem`; `dsKey` and `quit` are
what `c.queue.Get()` returned.  The deferred `c.queue.Done(dsKey)` runs when the
function returns, after every other call of the body. -/
def processNextWorkItem (c : TargetConfigReconciler) (dsKey : String) (quit : Bool) :
    WorkItemResult :=
  if quit then
    ⟨false, [.queueGet]⟩
  else
    let deferred : List Call := [.queueDone dsKey]
    let r := sync c
    match r.err with
    | none =>
      ⟨true, [.queueGet, .sync] ++ r.calls ++ [.queueForget dsKey] ++ deferred⟩
    | some err =>
      ⟨true, [.queueGet, .sync] ++ r.calls ++
        [.HandleError ⟨dsKey ++ " failed with : " ++ err.msg⟩, .queueAddRateLimited dsKey] ++
        deferred⟩

/-- One turn of the worker loop as the worker sees it: what `c.queue.Get()` returns
and what the collaborators answer during the cycle. -/
structure Cycle where
  c : TargetConfigReconciler
  dsKey : String
  quit : Bool

/-- Outcome of `runWorker` on a script of cycles: `returned` tells whether the loop
ended (the function returned); when it is `false` the script is used up and the
worker is blocked in `c.queue.Get()`. -/
structure WorkerRun where
  returned : Bool
  calls : List Call
deriving DecidableEq, Repr

/-- The method `TargetConfigReconciler.runWorker`: `for c.processNextWorkItem() {}`. -/
def runWorker : List Cycle → WorkerRun
  | [] => ⟨false, []⟩
  | cy :: rest =>
    let r := processNextWorkItem cy.c cy.dsKey cy.quit
    if r.ret then
      ⟨(runWorker rest).returned, r.calls ++ (runWorker rest).calls⟩
    else
      ⟨true, r.calls⟩

/-! ## Event handlers -/

/-- Modelled from the spec: the DedupKey, "a single sentinel token" (the constant
`workQueueKey`, declared in another file of the package). -/
def workQueueKey : String := "key"

/-- Modelled from the spec: the "statically configured target namespace name" (the
constant `operatorclient.TargetNamespace`, declared in the package `operatorclient`). -/
def TargetNamespace : String := "openshift-kube-scheduler"

/-- The `corev1.Namespace` object; only its name is read. -/
structure Namespace where
  Name : String
deriving DecidableEq, Repr

/-- Dynamic value of an `interface{}` event payload: a pointer to a
`corev1.Namespace` (`none` is the nil pointer of that type), a
`cache.DeletedFinalStateUnknown` value (key and wrapped object), or a value of any
other dynamic type (the nil interface included). -/
inductive Payload where
  | namespacePtr (ns : Option Namespace)
  | DeletedFinalStateUnknown (Key : String) (Obj : Payload)
  | other (kind : String)
deriving DecidableEq, Repr

/-- The type assertion `ns, ok := obj.(*corev1.Namespace)`: the pointer `ns` (`none`
is nil) and `ok`.  It succeeds on every value of the pointer type, the nil pointer
included; when it fails `ns` is nil. -/
def assertNamespace : Payload → Option Namespace × Bool
  | .namespacePtr ns => (ns, true)
  | _ => (none, false)

/-- The type assertion `obj.(cache.DeletedFinalStateUnknown)`; the result is the
field `Obj` of the tombstone, `none` is `ok == false`. -/
def assertDeletedFinalStateUnknown : Payload → Option Payload
  | .DeletedFinalStateUnknown _ obj => some obj
  | _ => none

/-- Outcome of one handler callback: the calls made, and whether the callback
ended in a run-time panic (nil pointer dereference) instead of returning. -/
structure HandlerResult where
  calls : List Call
  panicked : Bool
deriving DecidableEq, Repr

/-- The struct `cache.ResourceEventHandlerFuncs`. -/
structure ResourceEventHandlerFuncs where
  AddFunc : Payload → HandlerResult
  UpdateFunc : Payload → Payload → HandlerResult
  DeleteFunc : Payload → HandlerResult

/-- The method `TargetConfigReconciler.eventHandler`. -/
def eventHandler : ResourceEventHandlerFuncs where
  AddFunc := fun _obj => ⟨[.queueAdd workQueueKey], false⟩
  UpdateFunc := fun _old _new => ⟨[.queueAdd workQueueKey], false⟩
  DeleteFunc := fun _obj => ⟨[.queueAdd workQueueKey], false⟩

/-- The tail shared by the three namespace callbacks:
`if ns.Name == operatorclient.TargetNamespace { c.queue.Add(workQueueKey) }`,
run after the calls `before`; reading `ns.Name` through a nil `ns` panics. -/
def checkNamespaceName (before : List Call) (ns : Option Namespace) : HandlerResult :=
  match ns with
  | none => ⟨before, true⟩
  | some ns =>
    if ns.Name = TargetNamespace then
      ⟨before ++ [.queueAdd workQueueKey], false⟩
    else
      ⟨before, false⟩

/-- The `AddFunc` closure of `namespaceEventHandler`. -/
def namespaceAddFunc (obj : Payload) : HandlerResult :=
  let ns := (assertNamespace obj).1
  let ok := (assertNamespace obj).2
  let before : List Call := if !ok then [.queueAdd workQueueKey] else []
  checkNamespaceName before ns

/-- The `UpdateFunc` closure of `namespaceEventHandler`. -/
def namespaceUpdateFunc (old _new : Payload) : HandlerResult :=
  let ns := (assertNamespace old).1
  let ok := (assertNamespace old).2
  let before : List Call := if !ok then [.queueAdd workQueueKey] else []
  checkNamespaceName before ns

/-- The `DeleteFunc` closure of `namespaceEventHandler`. -/
def namespaceDeleteFunc (obj : Payload) : HandlerResult :=
  let ns := (assertNamespace obj).1
  let ok := (assertNamespace obj).2
  if !ok then
    match assertDeletedFinalStateUnknown obj with
    | none =>
      ⟨[.HandleError ⟨"couldn't get object from tombstone"⟩], false⟩
    | some tombstoneObj =>
      let ns := (assertNamespace tombstoneObj).1
      let ok := (assertNamespace tombstoneObj).2
      if !ok then
        ⟨[.HandleError ⟨"tombstone contained object that is not a Namespace"⟩], false⟩
      else
        checkNamespaceName [] ns
  else
    checkNamespaceName [] ns

/-- The method `TargetConfigReconciler.namespaceEventHandler`. -/
def namespaceEventHandler : ResourceEventHandlerFuncs where
  AddFunc := namespaceAddFunc
  UpdateFunc := namespaceUpdateFunc
  DeleteFunc := namespaceDeleteFunc

/-! ## Run and the cache sync gate -/

/-- A `cache.InformerSynced` predicate, observed at the successive polls of the
cache sync gate: `synced t` is what the predicate answers at poll number `t`. -/
abbrev InformerSynced := Nat → Bool

/-- The `HasSynced` predicate of every informer that `NewTargetConfigReconciler`
subscribes to with `AddEventHandler`. -/
structure WatchedInformers where
  Schedulers : InformerSynced
  FeatureGates : InformerSynced
  operatorConfigInformer : InformerSynced
  Roles : InformerSynced
  RoleBindings : InformerSynced
  ConfigMaps : InformerSynced
  Secrets : InformerSynced
  ServiceAccounts : InformerSynced
  Services : InformerSynced
  GlobalUserSpecifiedConfigMaps : InformerSynced
  TargetNamespaceConfigMaps : InformerSynced
  Namespaces : InformerSynced

/-- The watched collections, in the order of the `AddEventHandler` calls of
`NewTargetConfigReconciler`. -/
def WatchedInformers.subscribed (i : WatchedInformers) : List InformerSynced :=
  [i.Schedulers, i.operatorConfigInformer, i.Roles, i.RoleBindings, i.ConfigMaps, i.Secrets,
    i.ServiceAccounts, i.Services, i.Schedulers, i.FeatureGates,
    i.GlobalUserSpecifiedConfigMaps, i.TargetNamespaceConfigMaps, i.Namespaces]

/-- The two sync predicates that the struct `TargetConfigReconciler` stores. -/
structure CacheSyncs where
  SchedulingCacheSync : InformerSynced
  featureGateCacheSync : InformerSynced

/-- The constructor `NewTargetConfigReconciler`, as far as sync predicates go. -/
def NewTargetConfigReconciler (i : WatchedInformers) : CacheSyncs where
  SchedulingCacheSync := i.Schedulers
  featureGateCacheSync := i.FeatureGates

/-- Modelled from the spec: the Cache Sync Gate (`cache.WaitForCacheSync`, a function of
the client library), which "blocks on the initial-listing completion signal" of
the predicates it is given until the stop signal.  The predicates are
polled at polls `0, 1, ..., stopCh`, the stop channel closing after poll `stopCh`;
`some t` is the Go result `true`, reached at the first poll `t` at which every
predicate answers `true`, and `none` is the Go result `false`. -/
def WaitForCacheSync (stopCh : Nat) (cacheSyncs : List InformerSynced) : Option Nat :=
  (List.range (stopCh + 1)).find? (fun t => cacheSyncs.all (fun synced => synced t))

/-- Outcome of `Run`: the calls made, and the poll at which the worker was started
(`none` when it never was). -/
structure RunResult where
  calls : List Call
  workerStarted : Option Nat
deriving DecidableEq, Repr

/-- The method `TargetConfigReconciler.Run`; the deferred calls run last, in reverse
order of their `defer` statements (the deferred `HandleCrash` acts on a panic only
and makes no call here). -/
def Run (c : CacheSyncs) (stopCh : Nat) : RunResult :=
  let deferred : List Call :=
    [.klogInfof "Shutting down TargetConfigReconciler", .queueShutDown]
  match WaitForCacheSync stopCh [c.SchedulingCacheSync] with
  | none =>
    ⟨[.klogInfof "Starting TargetConfigReconciler",
        .HandleError ⟨"scheduler caches did not sync"⟩] ++ deferred, none⟩
  | some t =>
    ⟨[.klogInfof "Starting TargetConfigReconciler", .goRunWorker, .recvStopCh] ++ deferred,
      some t⟩

/-! ## Events and the deduplicating queue -/

/-- The three operations of a change notification. -/
inductive Operation where
  | Add
  | Update
  | Delete
deriving DecidableEq, Repr

/-- A change notification: `fromNamespaces` tells whether it comes from the
Namespaces informer (handled by `namespaceEventHandler`) or from any other
subscribed informer (handled by `eventHandler`); `obj` is the payload (the old
object of an Update) and `new` the new object of an Update. -/
structure Event where
  fromNamespaces : Bool
  operation : Operation
  obj : Payload
  new : Payload
deriving DecidableEq, Repr

/-- The handler that `NewTargetConfigReconciler` registered for the event's informer. -/
def Event.handler (e : Event) : ResourceEventHandlerFuncs :=
  if e.fromNamespaces then namespaceEventHandler else eventHandler

/-- Delivery of one event to its registered callback. -/
def dispatch (e : Event) : HandlerResult :=
  match e.operation with
  | .Add => e.handler.AddFunc e.obj
  | .Update => e.handler.UpdateFunc e.obj e.new
  | .Delete => e.handler.DeleteFunc e.obj

/-- Modelled from the spec: the Leveled Work Queue, "a key-deduplicating queue" (the
`workqueue` type of the client library), as the keys pending in it, oldest first. -/
structure WorkQueue where
  pending : List String
deriving DecidableEq, Repr

/-- Modelled from the spec: `push(key)` "inserts the key if not already pending;
idempotent". -/
def WorkQueue.push (q : WorkQueue) (key : String) : WorkQueue :=
  if key ∈ q.pending then q else ⟨q.pending ++ [key]⟩

/-- Modelled from the spec: `pop()` hands out the oldest pending key; `none` is the
worker blocked on the empty queue. -/
def WorkQueue.pop (q : WorkQueue) : Option (String × WorkQueue) :=
  match q.pending with
  | [] => none
  | key :: rest => some (key, ⟨rest⟩)

/-- The keys of the `c.queue.Add` calls of a call list, in order. -/
def addedKeys : List Call → List String
  | [] => []
  | .queueAdd key :: rest => key :: addedKeys rest
  | _ :: rest => addedKeys rest

/-- Arrival of a sequence of events at a queue: each event is given to its callback
and the keys the callback adds are pushed; `none` when a callback panicked (the
process, and the queue with it, is gone). -/
def deliver (q : WorkQueue) : List Event → Option WorkQueue
  | [] => some q
  | e :: rest =>
    let r := dispatch e
    if r.panicked then none else deliver ((addedKeys r.calls).foldl WorkQueue.push q) rest

/-- The worker working off the keys `pending` in the queue, oldest first (no event
and no delayed re-push arriving meanwhile): one `processNextWorkItem` per popped
key. -/
def drainPending (c : TargetConfigReconciler) : List String → List Call
  | [] => []
  | key :: rest => (processNextWorkItem c key false).calls ++ drainPending c rest

/-- The worker popping every key pending in the queue, until `pop` blocks. -/
def drain (c : TargetConfigReconciler) (q : WorkQueue) : List Call :=
  drainPending c q.pending

/-- Number of `c.sync()` invocations in a call list. -/
def syncInvocations (calls : List Call) : Nat :=
  calls.count Call.sync

/-! ## Observations on call lists -/

/-- Whether the call is an invocation of the domain reconcile function. -/
def Call.isDomainReconcile : Call → Bool
  | .createTargetConfigReconciler_v410_00_to_latest _ => true
  | _ => false

/-- Whether the call is an `UpdateStatus` call. -/
def Call.isUpdateStatus : Call → Bool
  | .UpdateStatus _ => true
  | _ => false

/-- Whether the call is a `c.queue.Add` call. -/
def Call.isQueueAdd : Call → Bool
  | .queueAdd _ => true
  | _ => false

/-- Whether the call is a call on the work queue. -/
def Call.isQueueCall : Call → Bool
  | .queueGet => true
  | .queueAdd _ => true
  | .queueForget _ => true
  | .queueDone _ => true
  | .queueAddRateLimited _ => true
  | .queueShutDown => true
  | _ => false

/-- The calls on the work queue, in program order. -/
def queueCalls (calls : List Call) : List Call :=
  calls.filter Call.isQueueCall

/-- The work-queue calls issued after `c.queue.Get()`, in program order. -/
def queueCallsAfterGet (calls : List Call) : List Call :=
  (queueCalls calls).drop 1

/-! ## Example inputs -/

/-- Modelled from the spec: a Condition is "unique by `type` within the ordered list;
updated in place, never duplicated" (`v1helpers.SetOperatorCondition`, a function of
the operator library); `now` is the clock reading. -/
def SetOperatorCondition (now : Nat) :
    List OperatorCondition → OperatorCondition → List OperatorCondition
  | [], newCondition => [{ newCondition with LastTransitionTime := now }]
  | existing :: rest, newCondition =>
    if existing.Type_ = newCondition.Type_ then
      { existing with
        Status := newCondition.Status
        LastTransitionTime :=
          if existing.Status = newCondition.Status then existing.LastTransitionTime else now
        Reason := newCondition.Reason
        Message := newCondition.Message } :: rest
    else
      existing :: SetOperatorCondition now rest newCondition

/-- An operator config named "cluster" in the given management state. -/
def clusterConfig (managementState : ManagementState) : KubeScheduler :=
  { Name := "cluster"
    ResourceVersion := "1"
    Spec := ⟨managementState, ""⟩
    Status := ⟨[], ""⟩ }

/-- The same operator config after the domain function touched its status. -/
def touchedConfig (managementState : ManagementState) : KubeScheduler :=
  { Name := "cluster"
    ResourceVersion := "1"
    Spec := ⟨managementState, ""⟩
    Status := ⟨[], "observed"⟩ }

/-- Collaborators of one cycle with fixed answers. -/
def cycleWith (get : Except GoError KubeScheduler)
    (domain : KubeScheduler × Bool × Option GoError)
    (update : Except GoError KubeScheduler) : TargetConfigReconciler :=
  { Get := fun _ => get
    UpdateStatus := fun _ => update
    createTargetConfigReconciler_v410_00_to_latest := fun _ => domain
    SetOperatorCondition := SetOperatorCondition 7 }

/-- Whether the callback of the event makes at least one `c.queue.Add` call. -/
def enqueues (e : Event) : Bool :=
  !(addedKeys (dispatch e).calls).isEmpty

/-- A namespace named `name`, as an event payload. -/
def namespaceNamed (name : String) : Payload :=
  .namespacePtr (some ⟨name⟩)

/-- An Update event of a config map, from an informer served by `eventHandler`. -/
def configMapUpdate : Event :=
  ⟨false, .Update, .other "*v1.ConfigMap", .other "*v1.ConfigMap"⟩

/-- An Add event of the namespace "default", from the Namespaces informer. -/
def defaultNamespaceAdd : Event :=
  ⟨true, .Add, namespaceNamed "default", namespaceNamed "default"⟩

/-- Informers of which all but the feature-gate informer are synced from the first
poll on, the feature-gate informer never. -/
def featureGatesNeverSynced : WatchedInformers :=
  { Schedulers := fun _ => true
    FeatureGates := fun _ => false
    operatorConfigInformer := fun _ => true
    Roles := fun _ => true
    RoleBindings := fun _ => true
    ConfigMaps := fun _ => true
    Secrets := fun _ => true
    ServiceAccounts := fun _ => true
    Services := fun _ => true
    GlobalUserSpecifiedConfigMaps := fun _ => true
    TargetNamespaceConfigMaps := fun _ => true
    Namespaces := fun _ => true }

/-- Sync predicates of which the scheduler one answers true from poll 2 on. -/
def schedulersSyncedAtTwo : CacheSyncs :=
  { SchedulingCacheSync := fun t => decide (2 ≤ t)
    featureGateCacheSync := fun _ => false }

/-! ## Theorems -/

/-- The result of `sync` when the fetch fails. -/
theorem sync_of_get_error (c : TargetConfigReconciler) (e : GoError)
    (hget : c.Get "cluster" = .error e) : sync c = ⟨some e, [.Get "cluster"]⟩ := by
  unfold sync
  rw [hget]

/-- The result of `sync` when the domain function asks for a requeue without error. -/
theorem sync_of_requeue (c : TargetConfigReconciler) (operatorConfig after : KubeScheduler)
    (hget : c.Get "cluster" = .ok operatorConfig)
    (hu : operatorConfig.Spec.ManagementState ≠ Unmanaged)
    (hr : operatorConfig.Spec.ManagementState ≠ Removed)
    (hdomain : c.createTargetConfigReconciler_v410_00_to_latest operatorConfig =
      (after, true, none)) :
    sync c = ⟨some syntheticRequeue,
      [.Get "cluster", .createTargetConfigReconciler_v410_00_to_latest operatorConfig]⟩ := by
  unfold sync
  rw [hget]
  simp [hu, hr, hdomain]

/-- The result of `sync` when the domain function succeeds without requeue. -/
theorem sync_of_success (c : TargetConfigReconciler) (operatorConfig after : KubeScheduler)
    (hget : c.Get "cluster" = .ok operatorConfig)
    (hu : operatorConfig.Spec.ManagementState ≠ Unmanaged)
    (hr : operatorConfig.Spec.ManagementState ≠ Removed)
    (hdomain : c.createTargetConfigReconciler_v410_00_to_latest operatorConfig =
      (after, false, none)) :
    sync c = ⟨none,
      [.Get "cluster", .createTargetConfigReconciler_v410_00_to_latest operatorConfig]⟩ := by
  unfold sync
  rw [hget]
  simp [hu, hr, hdomain]

/-- The result of `sync` when the domain function fails and left the object as it was. -/
theorem sync_of_error_unchanged (c : TargetConfigReconciler)
    (operatorConfig after : KubeScheduler) (requeue : Bool) (e : GoError)
    (hget : c.Get "cluster" = .ok operatorConfig)
    (hu : operatorConfig.Spec.ManagementState ≠ Unmanaged)
    (hr : operatorConfig.Spec.ManagementState ≠ Removed)
    (hdomain : c.createTargetConfigReconciler_v410_00_to_latest operatorConfig =
      (after, requeue, some e))
    (hsame : after = operatorConfig) :
    sync c = ⟨some e,
      [.Get "cluster", .createTargetConfigReconciler_v410_00_to_latest operatorConfig]⟩ := by
  unfold sync
  rw [hget]
  simp [hu, hr, hdomain, hsame]

/-- The result of `sync` when the domain function fails and changed the object. -/
theorem sync_of_error_changed (c : TargetConfigReconciler)
    (operatorConfig after : KubeScheduler) (requeue : Bool) (e : GoError)
    (hget : c.Get "cluster" = .ok operatorConfig)
    (hu : operatorConfig.Spec.ManagementState ≠ Unmanaged)
    (hr : operatorConfig.Spec.ManagementState ≠ Removed)
    (hdomain : c.createTargetConfigReconciler_v410_00_to_latest operatorConfig =
      (after, requeue, some e))
    (hdiff : after ≠ operatorConfig) :
    sync c = ⟨some e,
      [.Get "cluster", .createTargetConfigReconciler_v410_00_to_latest operatorConfig,
        .UpdateStatus (setDegradedCondition c after e)] ++
      (match c.UpdateStatus (setDegradedCondition c after e) with
        | .error updateError => [.klogError updateError]
        | .ok _ => [])⟩ := by
  unfold sync
  rw [hget]
  have hdiff2 : ¬ operatorConfig = after := fun h => hdiff h.symm
  simp only [hu, hr, if_false, hdomain]
  cases hupd : c.UpdateStatus (setDegradedCondition c after e) <;> simp [hdiff2, hupd]

/-- The result of `sync` on an Unmanaged or Removed target. -/
theorem sync_of_unmanaged_or_removed (c : TargetConfigReconciler)
    (operatorConfig : KubeScheduler)
    (hget : c.Get "cluster" = .ok operatorConfig)
    (hstate : operatorConfig.Spec.ManagementState = Unmanaged ∨
      operatorConfig.Spec.ManagementState = Removed) :
    sync c = ⟨none, [.Get "cluster"]⟩ := by
  unfold sync
  rw [hget]
  rcases hstate with h | h
  · simp [h]
  · simp [h]

/-- The calls of `sync` are never calls on the work queue and never `c.sync()` itself. -/
theorem sync_calls_not_queue (c : TargetConfigReconciler) :
    ∀ x ∈ (sync c).calls, x.isQueueCall = false ∧ x ≠ Call.sync := by
  intro x hx
  rcases hget : c.Get "cluster" with e | operatorConfig
  · rw [sync_of_get_error c e hget] at hx
    simp at hx
    subst hx
    simp [Call.isQueueCall]
  · by_cases hstate : operatorConfig.Spec.ManagementState = Unmanaged ∨
        operatorConfig.Spec.ManagementState = Removed
    · rw [sync_of_unmanaged_or_removed c operatorConfig hget hstate] at hx
      simp at hx
      subst hx
      simp [Call.isQueueCall]
    · push_neg at hstate
      rcases hd : c.createTargetConfigReconciler_v410_00_to_latest operatorConfig with
        ⟨after, requeue, err⟩
      cases err with
      | none =>
        cases requeue with
        | true =>
          rw [sync_of_requeue c operatorConfig after hget hstate.1 hstate.2 hd] at hx
          simp at hx
          rcases hx with h | h <;> subst h <;> simp [Call.isQueueCall]
        | false =>
          rw [sync_of_success c operatorConfig after hget hstate.1 hstate.2 hd] at hx
          simp at hx
          rcases hx with h | h <;> subst h <;> simp [Call.isQueueCall]
      | some e =>
        by_cases hsame : after = operatorConfig
        · rw [sync_of_error_unchanged c operatorConfig after requeue e hget hstate.1 hstate.2
            hd hsame] at hx
          simp at hx
          rcases hx with h | h <;> subst h <;> simp [Call.isQueueCall]
        · rw [sync_of_error_changed c operatorConfig after requeue e hget hstate.1 hstate.2
            hd hsame] at hx
          cases hupd : c.UpdateStatus (setDegradedCondition c after e) <;>
            simp [hupd] at hx
          · rcases hx with h | h | h | h <;> subst h <;> simp [Call.isQueueCall]
          · rcases hx with h | h | h <;> subst h <;> simp [Call.isQueueCall]

/-- The work-queue calls of `sync`: none. -/
theorem queueCalls_sync (c : TargetConfigReconciler) : queueCalls (sync c).calls = [] := by
  unfold queueCalls
  rw [List.filter_eq_nil_iff]
  intro x hx
  simp [(sync_calls_not_queue c x hx).1]

/-- The `c.sync()` markers among the calls of `sync` itself: none. -/
theorem count_sync_sync (c : TargetConfigReconciler) : (sync c).calls.count Call.sync = 0 := by
  rw [List.count_eq_zero]
  intro h
  exact (sync_calls_not_queue c _ h).2 rfl

/-- The work-queue calls of one `processNextWorkItem` on a queue that is not shutting
down: `Get`, then `Forget` and `Done` when `sync` returned nil, `AddRateLimited` and
`Done` when it returned an error. -/
theorem queueCalls_processNextWorkItem (c : TargetConfigReconciler) (dsKey : String) :
    queueCalls (processNextWorkItem c dsKey false).calls =
      match (sync c).err with
      | none => [.queueGet, .queueForget dsKey, .queueDone dsKey]
      | some _ => [.queueGet, .queueAddRateLimited dsKey, .queueDone dsKey] := by
  have h0 : List.filter Call.isQueueCall (sync c).calls = [] := queueCalls_sync c
  unfold processNextWorkItem queueCalls
  cases h : (sync c).err <;>
    simp [h, List.filter_append, List.filter_cons, h0, Call.isQueueCall]

/-- The number of `c.sync()` invocations of one `processNextWorkItem`: none when the
queue is shutting down, one otherwise. -/
theorem syncInvocations_processNextWorkItem (c : TargetConfigReconciler) (dsKey : String)
    (quit : Bool) :
    syncInvocations (processNextWorkItem c dsKey quit).calls = if quit then 0 else 1 := by
  have h0 := count_sync_sync c
  unfold processNextWorkItem syncInvocations
  cases quit with
  | true => simp
  | false =>
    cases h : (sync c).err <;>
      simp [h, List.count_append, List.count_cons, h0]

/-- The boolean returned by `processNextWorkItem` is the negation of `quit`. -/
theorem ret_processNextWorkItem (c : TargetConfigReconciler) (dsKey : String) (quit : Bool) :
    (processNextWorkItem c dsKey quit).ret = !quit := by
  unfold processNextWorkItem
  cases quit with
  | true => simp
  | false => cases h : (sync c).err <;> simp [h]

/-- C1: when the fetched target object is Unmanaged or Removed, `sync` returns nil
having made no call to the domain reconcile function and no `UpdateStatus` call (its
only call is the fetch), and `processNextWorkItem` then calls `Forget` on the key
and never `AddRateLimited`. -/
theorem sync_unmanaged_or_removed_noop (c : TargetConfigReconciler)
    (operatorConfig : KubeScheduler) (dsKey : String)
    (hget : c.Get "cluster" = .ok operatorConfig)
    (hstate : operatorConfig.Spec.ManagementState = Unmanaged ∨
      operatorConfig.Spec.ManagementState = Removed) :
    (sync c).err = none ∧
    (sync c).calls = [.Get "cluster"] ∧
    (sync c).calls.countP Call.isDomainReconcile = 0 ∧
    (sync c).calls.countP Call.isUpdateStatus = 0 ∧
    processNextWorkItem c dsKey false =
      ⟨true, [.queueGet, .sync, .Get "cluster", .queueForget dsKey, .queueDone dsKey]⟩ ∧
    Call.queueForget dsKey ∈ (processNextWorkItem c dsKey false).calls ∧
    (∀ key, Call.queueAddRateLimited key ∉ (processNextWorkItem c dsKey false).calls) := by
  have hs : sync c = ⟨none, [.Get "cluster"]⟩ :=
    sync_of_unmanaged_or_removed c operatorConfig hget hstate
  have hp : processNextWorkItem c dsKey false =
      ⟨true, [.queueGet, .sync, .Get "cluster", .queueForget dsKey, .queueDone dsKey]⟩ := by
    simp [processNextWorkItem, hs]
  rw [hp, hs]
  simp [Call.isDomainReconcile, Call.isUpdateStatus]

/-- Witness of C1: a Removed target whose domain function would fail if called. -/
theorem sync_unmanaged_or_removed_noop_witness :
    (sync (cycleWith (.ok (clusterConfig Removed))
      (touchedConfig Removed, true, some ⟨"boom"⟩) (.error ⟨"conflict"⟩))).err = none ∧
    (sync (cycleWith (.ok (clusterConfig Removed))
      (touchedConfig Removed, true, some ⟨"boom"⟩) (.error ⟨"conflict"⟩))).calls.countP
        Call.isDomainReconcile = 0 :=
  have h := sync_unmanaged_or_removed_noop
    (cycleWith (.ok (clusterConfig Removed)) (touchedConfig Removed, true, some ⟨"boom"⟩)
      (.error ⟨"conflict"⟩))
    (clusterConfig Removed) "key" rfl (Or.inr rfl)
  ⟨h.1, h.2.2.1⟩

/-- The management state Managed is neither Unmanaged nor Removed. -/
theorem managed_ne : Managed ≠ Unmanaged ∧ Managed ≠ Removed := by
  constructor <;> decide

/-- C2: on a Managed target, when the domain reconcile function returns
`(requeue = true, err = nil)`, `sync` returns a non-nil error (the synthetic requeue
request), and `processNextWorkItem` treats the cycle as failed: it calls
`AddRateLimited` on the key and never `Forget`. -/
theorem sync_requeue_is_failure (c : TargetConfigReconciler)
    (operatorConfig after : KubeScheduler) (dsKey : String)
    (hget : c.Get "cluster" = .ok operatorConfig)
    (hstate : operatorConfig.Spec.ManagementState = Managed)
    (hdomain : c.createTargetConfigReconciler_v410_00_to_latest operatorConfig =
      (after, true, none)) :
    (sync c).err = some syntheticRequeue ∧
    (sync c).err ≠ none ∧
    processNextWorkItem c dsKey false =
      ⟨true, [.queueGet, .sync, .Get "cluster",
        .createTargetConfigReconciler_v410_00_to_latest operatorConfig,
        .HandleError ⟨dsKey ++ " failed with : " ++ syntheticRequeue.msg⟩,
        .queueAddRateLimited dsKey, .queueDone dsKey]⟩ ∧
    Call.queueAddRateLimited dsKey ∈ (processNextWorkItem c dsKey false).calls ∧
    (∀ key, Call.queueForget key ∉ (processNextWorkItem c dsKey false).calls) := by
  have hs := sync_of_requeue c operatorConfig after hget (hstate ▸ managed_ne.1)
    (hstate ▸ managed_ne.2) hdomain
  have hp : processNextWorkItem c dsKey false =
      ⟨true, [.queueGet, .sync, .Get "cluster",
        .createTargetConfigReconciler_v410_00_to_latest operatorConfig,
        .HandleError ⟨dsKey ++ " failed with : " ++ syntheticRequeue.msg⟩,
        .queueAddRateLimited dsKey, .queueDone dsKey]⟩ := by
    simp [processNextWorkItem, hs]
  rw [hp, hs]
  simp

/-- Witness of C2: a Managed target whose domain function asks for a requeue. -/
theorem sync_requeue_is_failure_witness :
    (sync (cycleWith (.ok (clusterConfig Managed)) (clusterConfig Managed, true, none)
      (.ok (clusterConfig Managed)))).err ≠ none ∧
    Call.queueAddRateLimited "key" ∈
      (processNextWorkItem (cycleWith (.ok (clusterConfig Managed))
        (clusterConfig Managed, true, none) (.ok (clusterConfig Managed))) "key" false).calls :=
  have h := sync_requeue_is_failure
    (cycleWith (.ok (clusterConfig Managed)) (clusterConfig Managed, true, none)
      (.ok (clusterConfig Managed)))
    (clusterConfig Managed) (clusterConfig Managed) "key" rfl rfl rfl
  ⟨h.2.1, h.2.2.2.1⟩

/-- C3 as stated fails: the domain function is invoked, returns `(false, nil)` and has
changed the object, yet `sync` makes no `UpdateStatus` call. -/
theorem sync_updateStatus_iff_differs_counterexample :
    (sync (cycleWith (.ok (clusterConfig Managed)) (touchedConfig Managed, false, none)
      (.ok (touchedConfig Managed)))).calls.countP Call.isDomainReconcile = 1 ∧
    touchedConfig Managed ≠ clusterConfig Managed ∧
    (sync (cycleWith (.ok (clusterConfig Managed)) (touchedConfig Managed, false, none)
      (.ok (touchedConfig Managed)))).calls.countP Call.isUpdateStatus = 0 := by
  have hs := sync_of_success
    (cycleWith (.ok (clusterConfig Managed)) (touchedConfig Managed, false, none)
      (.ok (touchedConfig Managed)))
    (clusterConfig Managed) (touchedConfig Managed) rfl managed_ne.1 managed_ne.2 rfl
  rw [hs]
  refine ⟨by simp [Call.isDomainReconcile], by decide, by simp [Call.isUpdateStatus]⟩

/-- C3 amended: in every cycle in which the domain reconcile function is invoked,
`sync` issues an `UpdateStatus` call (exactly one, carrying the object with the
Degraded condition set) if and only if the domain function returned a non-nil error
and the object after the call differs from the snapshot taken before it; otherwise,
in particular when the two are identical, it makes no `UpdateStatus` call. -/
theorem sync_updateStatus_iff_error_and_differs (c : TargetConfigReconciler)
    (operatorConfig after : KubeScheduler) (requeue : Bool) (err : Option GoError)
    (hget : c.Get "cluster" = .ok operatorConfig)
    (hu : operatorConfig.Spec.ManagementState ≠ Unmanaged)
    (hr : operatorConfig.Spec.ManagementState ≠ Removed)
    (hdomain : c.createTargetConfigReconciler_v410_00_to_latest operatorConfig =
      (after, requeue, err)) :
    (sync c).calls.countP Call.isDomainReconcile = 1 ∧
    ((∃ updated, Call.UpdateStatus updated ∈ (sync c).calls) ↔
      (err ≠ none ∧ after ≠ operatorConfig)) ∧
    ((err ≠ none ∧ after ≠ operatorConfig) →
      (sync c).calls.countP Call.isUpdateStatus = 1 ∧
      ∀ e, err = some e → Call.UpdateStatus (setDegradedCondition c after e) ∈ (sync c).calls) ∧
    (¬ (err ≠ none ∧ after ≠ operatorConfig) →
      (sync c).calls.countP Call.isUpdateStatus = 0) ∧
    (after = operatorConfig → (sync c).calls.countP Call.isUpdateStatus = 0) := by
  cases err with
  | none =>
    cases requeue with
    | true =>
      rw [sync_of_requeue c operatorConfig after hget hu hr hdomain]
      simp [Call.isDomainReconcile, Call.isUpdateStatus]
    | false =>
      rw [sync_of_success c operatorConfig after hget hu hr hdomain]
      simp [Call.isDomainReconcile, Call.isUpdateStatus]
  | some e =>
    by_cases hsame : after = operatorConfig
    · rw [sync_of_error_unchanged c operatorConfig after requeue e hget hu hr hdomain hsame]
      simp [Call.isDomainReconcile, Call.isUpdateStatus, hsame]
    · rw [sync_of_error_changed c operatorConfig after requeue e hget hu hr hdomain hsame]
      cases hupd : c.UpdateStatus (setDegradedCondition c after e) <;>
        simp [Call.isDomainReconcile, Call.isUpdateStatus, hsame, List.countP_cons]

/-- Witness of C3 amended: the domain function fails after changing the object, and
the one `UpdateStatus` call is made. -/
theorem sync_updateStatus_iff_error_and_differs_witness :
    (sync (cycleWith (.ok (clusterConfig Managed)) (touchedConfig Managed, false, some ⟨"boom"⟩)
      (.error ⟨"conflict"⟩))).calls.countP Call.isUpdateStatus = 1 :=
  ((sync_updateStatus_iff_error_and_differs
    (cycleWith (.ok (clusterConfig Managed)) (touchedConfig Managed, false, some ⟨"boom"⟩)
      (.error ⟨"conflict"⟩))
    (clusterConfig Managed) (touchedConfig Managed) false (some ⟨"boom"⟩) rfl
    managed_ne.1 managed_ne.2 rfl).2.2.1 ⟨by simp, by decide⟩).1

/-- C4: the error returned by `sync` is never one produced by `UpdateStatus`.  When the
fetch fails with `e`, `sync` returns `e` and its only call is the fetch; when the
domain function is invoked and returns a non-nil error `e`, `sync` returns exactly
`e`, whatever `UpdateStatus` answers and whether or not it is called; and the error
returned by `sync` does not depend on what `UpdateStatus` answers. -/
theorem sync_error_never_from_updateStatus (c : TargetConfigReconciler) :
    (∀ e, c.Get "cluster" = .error e →
      sync c = ⟨some e, [.Get "cluster"]⟩ ∧
      (sync c).calls.countP Call.isDomainReconcile = 0 ∧
      (sync c).calls.countP Call.isUpdateStatus = 0) ∧
    (∀ operatorConfig after requeue e, c.Get "cluster" = .ok operatorConfig →
      operatorConfig.Spec.ManagementState ≠ Unmanaged →
      operatorConfig.Spec.ManagementState ≠ Removed →
      c.createTargetConfigReconciler_v410_00_to_latest operatorConfig =
        (after, requeue, some e) →
      (sync c).err = some e) ∧
    (∀ update : KubeScheduler → Except GoError KubeScheduler,
      (sync { c with UpdateStatus := update }).err = (sync c).err) := by
  refine ⟨?_, ?_, ?_⟩
  · intro e hget
    rw [sync_of_get_error c e hget]
    simp [Call.isDomainReconcile, Call.isUpdateStatus]
  · intro operatorConfig after requeue e hget hu hr hdomain
    by_cases hsame : after = operatorConfig
    · rw [sync_of_error_unchanged c operatorConfig after requeue e hget hu hr hdomain hsame]
    · rw [sync_of_error_changed c operatorConfig after requeue e hget hu hr hdomain hsame]
  · intro update
    have key : ∀ c2 : TargetConfigReconciler, c2.Get = c.Get →
        c2.createTargetConfigReconciler_v410_00_to_latest =
          c.createTargetConfigReconciler_v410_00_to_latest →
        (sync c2).err = (sync c).err := by
      intro c2 hG hD
      rcases hget : c.Get "cluster" with e | operatorConfig
      · rw [sync_of_get_error c e hget, sync_of_get_error c2 e (hG ▸ hget)]
      · have hget2 : c2.Get "cluster" = .ok operatorConfig := hG ▸ hget
        by_cases hstate : operatorConfig.Spec.ManagementState = Unmanaged ∨
            operatorConfig.Spec.ManagementState = Removed
        · rw [sync_of_unmanaged_or_removed c operatorConfig hget hstate,
            sync_of_unmanaged_or_removed c2 operatorConfig hget2 hstate]
        · push_neg at hstate
          rcases hd : c.createTargetConfigReconciler_v410_00_to_latest operatorConfig with
            ⟨after, requeue, err⟩
          have hd2 : c2.createTargetConfigReconciler_v410_00_to_latest operatorConfig =
              (after, requeue, err) := hD ▸ hd
          cases err with
          | none =>
            cases requeue with
            | true =>
              rw [sync_of_requeue c operatorConfig after hget hstate.1 hstate.2 hd,
                sync_of_requeue c2 operatorConfig after hget2 hstate.1 hstate.2 hd2]
            | false =>
              rw [sync_of_success c operatorConfig after hget hstate.1 hstate.2 hd,
                sync_of_success c2 operatorConfig after hget2 hstate.1 hstate.2 hd2]
          | some e =>
            by_cases hsame : after = operatorConfig
            · rw [sync_of_error_unchanged c operatorConfig after requeue e hget hstate.1
                  hstate.2 hd hsame,
                sync_of_error_unchanged c2 operatorConfig after requeue e hget2 hstate.1
                  hstate.2 hd2 hsame]
            · rw [sync_of_error_changed c operatorConfig after requeue e hget hstate.1
                  hstate.2 hd hsame,
                sync_of_error_changed c2 operatorConfig after requeue e hget2 hstate.1
                  hstate.2 hd2 hsame]
    exact key { c with UpdateStatus := update } rfl rfl

/-- Witness of C4: the domain error "boom" is returned although `UpdateStatus` fails
with "conflict"; a fetch error "timeout" is returned as it is. -/
theorem sync_error_never_from_updateStatus_witness :
    (sync (cycleWith (.ok (clusterConfig Managed)) (touchedConfig Managed, false, some ⟨"boom"⟩)
      (.error ⟨"conflict"⟩))).err = some ⟨"boom"⟩ ∧
    sync (cycleWith (.error ⟨"timeout"⟩) (touchedConfig Managed, false, some ⟨"boom"⟩)
      (.error ⟨"conflict"⟩)) = ⟨some ⟨"timeout"⟩, [.Get "cluster"]⟩ :=
  ⟨(sync_error_never_from_updateStatus
      (cycleWith (.ok (clusterConfig Managed)) (touchedConfig Managed, false, some ⟨"boom"⟩)
        (.error ⟨"conflict"⟩))).2.1
      (clusterConfig Managed) (touchedConfig Managed) false ⟨"boom"⟩ rfl
      managed_ne.1 managed_ne.2 rfl,
    ((sync_error_never_from_updateStatus
      (cycleWith (.error ⟨"timeout"⟩) (touchedConfig Managed, false, some ⟨"boom"⟩)
        (.error ⟨"conflict"⟩))).1 ⟨"timeout"⟩ rfl).1⟩

/-- C5 as stated fails: on a failed cycle (the fetch fails with "timeout") the queue calls
after `Get` are `AddRateLimited(key)` then `Done(key)`, not `Done(key)` then
`AddRateLimited(key)`. -/
theorem processNextWorkItem_failure_order_counterexample :
    (sync (cycleWith (.error ⟨"timeout"⟩) (clusterConfig Managed, false, none)
      (.ok (clusterConfig Managed)))).err ≠ none ∧
    queueCallsAfterGet (processNextWorkItem (cycleWith (.error ⟨"timeout"⟩)
      (clusterConfig Managed, false, none) (.ok (clusterConfig Managed))) "key" false).calls =
      [.queueAddRateLimited "key", .queueDone "key"] ∧
    queueCallsAfterGet (processNextWorkItem (cycleWith (.error ⟨"timeout"⟩)
      (clusterConfig Managed, false, none) (.ok (clusterConfig Managed))) "key" false).calls ≠
      [.queueDone "key", .queueAddRateLimited "key"] := by
  have hs := sync_of_get_error
    (cycleWith (.error ⟨"timeout"⟩) (clusterConfig Managed, false, none)
      (.ok (clusterConfig Managed))) ⟨"timeout"⟩ rfl
  have hq := queueCalls_processNextWorkItem
    (cycleWith (.error ⟨"timeout"⟩) (clusterConfig Managed, false, none)
      (.ok (clusterConfig Managed))) "key"
  rw [hs] at hq
  unfold queueCallsAfterGet
  rw [hq, hs]
  simp

/-- C5 amended: in every cycle in which the queue is not shutting down,
`processNextWorkItem` issues exactly these queue calls after `Get`, in this order:
`Forget(key)` then `Done(key)` when `sync` returns nil; `AddRateLimited(key)` then
`Done(key)` (the deferred call) when `sync` returns a non-nil error.  `Forget` is
never called on a failed cycle and `AddRateLimited` never on a successful one. -/
theorem processNextWorkItem_queue_calls (c : TargetConfigReconciler) (dsKey : String) :
    ((sync c).err = none →
      queueCallsAfterGet (processNextWorkItem c dsKey false).calls =
        [.queueForget dsKey, .queueDone dsKey] ∧
      ∀ key, Call.queueAddRateLimited key ∉ (processNextWorkItem c dsKey false).calls) ∧
    ((sync c).err ≠ none →
      queueCallsAfterGet (processNextWorkItem c dsKey false).calls =
        [.queueAddRateLimited dsKey, .queueDone dsKey] ∧
      ∀ key, Call.queueForget key ∉ (processNextWorkItem c dsKey false).calls) := by
  have hq := queueCalls_processNextWorkItem c dsKey
  have hmem : ∀ x, x ∈ (processNextWorkItem c dsKey false).calls → x.isQueueCall = true →
      x ∈ queueCalls (processNextWorkItem c dsKey false).calls := by
    intro x hx hx2
    unfold queueCalls
    exact List.mem_filter.mpr ⟨hx, hx2⟩
  constructor
  · intro hnone
    rw [hnone] at hq
    refine ⟨by simp [queueCallsAfterGet, hq], ?_⟩
    intro key hmemb
    have := hmem _ hmemb rfl
    rw [hq] at this
    simp at this
  · intro hsome
    obtain ⟨e, he⟩ := Option.ne_none_iff_exists'.mp hsome
    rw [he] at hq
    refine ⟨by simp [queueCallsAfterGet, hq], ?_⟩
    intro key hmemb
    have := hmem _ hmemb rfl
    rw [hq] at this
    simp at this

/-- Witness of C5 amended: a successful cycle on an Unmanaged target. -/
theorem processNextWorkItem_queue_calls_witness :
    queueCallsAfterGet (processNextWorkItem (cycleWith (.ok (clusterConfig Unmanaged))
      (clusterConfig Unmanaged, false, none) (.ok (clusterConfig Unmanaged))) "key" false).calls =
      [.queueForget "key", .queueDone "key"] :=
  ((processNextWorkItem_queue_calls (cycleWith (.ok (clusterConfig Unmanaged))
      (clusterConfig Unmanaged, false, none) (.ok (clusterConfig Unmanaged))) "key").1
    (by rw [sync_of_unmanaged_or_removed _ (clusterConfig Unmanaged) rfl (Or.inl rfl)])).1

/-- C6: `processNextWorkItem` returns false if and only if the queue's `Get` reports
shutdown, and then `sync` is not called; in every other cycle it returns true (and
calls `sync` once) whatever `sync` returns.  Hence `runWorker` ends only at a cycle
whose `Get` reports shutdown, having run one `sync` for every cycle before it. -/
theorem processNextWorkItem_false_iff_shutdown :
    (∀ (c : TargetConfigReconciler) (dsKey : String) (quit : Bool),
      ((processNextWorkItem c dsKey quit).ret = false ↔ quit = true) ∧
      (quit = true →
        (processNextWorkItem c dsKey quit).calls = [.queueGet] ∧
        syncInvocations (processNextWorkItem c dsKey quit).calls = 0) ∧
      (quit = false →
        (processNextWorkItem c dsKey quit).ret = true ∧
        syncInvocations (processNextWorkItem c dsKey quit).calls = 1)) ∧
    (∀ cycles : List Cycle,
      ((runWorker cycles).returned = true ↔ ∃ cy ∈ cycles, cy.quit = true) ∧
      syncInvocations (runWorker cycles).calls =
        (cycles.takeWhile (fun cy => !cy.quit)).length) := by
  constructor
  · intro c dsKey quit
    have hret := ret_processNextWorkItem c dsKey quit
    have hcount := syncInvocations_processNextWorkItem c dsKey quit
    refine ⟨by rw [hret]; cases quit <;> simp, ?_, ?_⟩
    · intro hq
      subst hq
      exact ⟨by simp [processNextWorkItem], by simpa using hcount⟩
    · intro hq
      subst hq
      exact ⟨by simpa using hret, by simpa using hcount⟩
  · intro cycles
    induction cycles with
    | nil => simp [runWorker, syncInvocations]
    | cons cy rest ih =>
      have hret := ret_processNextWorkItem cy.c cy.dsKey cy.quit
      have hcount := syncInvocations_processNextWorkItem cy.c cy.dsKey cy.quit
      unfold runWorker
      cases hq : cy.quit with
      | true =>
        rw [hq] at hret hcount
        simp [hret, hq, hcount, List.takeWhile_cons]
      | false =>
        rw [hq] at hret hcount
        simp only [syncInvocations] at ih hcount ⊢
        simp only [Bool.false_eq_true, if_false] at hcount
        simp [hret, hq, hcount, ih.1, ih.2, List.count_append, List.takeWhile_cons]
        omega

/-- Witness of C6: two failing cycles (a fetch error, a domain error) do not end the
worker loop; the shutdown in the third cycle does, after two `sync` invocations. -/
theorem processNextWorkItem_false_iff_shutdown_witness :
    (runWorker
      [⟨cycleWith (.error ⟨"timeout"⟩) (clusterConfig Managed, false, none)
          (.ok (clusterConfig Managed)), "key", false⟩,
        ⟨cycleWith (.ok (clusterConfig Managed)) (clusterConfig Managed, false, some ⟨"boom"⟩)
          (.ok (clusterConfig Managed)), "key", false⟩,
        ⟨cycleWith (.ok (clusterConfig Managed)) (clusterConfig Managed, false, none)
          (.ok (clusterConfig Managed)), "", true⟩]).returned = true ∧
    syncInvocations (runWorker
      [⟨cycleWith (.error ⟨"timeout"⟩) (clusterConfig Managed, false, none)
          (.ok (clusterConfig Managed)), "key", false⟩,
        ⟨cycleWith (.ok (clusterConfig Managed)) (clusterConfig Managed, false, some ⟨"boom"⟩)
          (.ok (clusterConfig Managed)), "key", false⟩,
        ⟨cycleWith (.ok (clusterConfig Managed)) (clusterConfig Managed, false, none)
          (.ok (clusterConfig Managed)), "", true⟩]).calls = 2 :=
  ⟨((processNextWorkItem_false_iff_shutdown.2 _).1).mpr
      ⟨⟨cycleWith (.ok (clusterConfig Managed)) (clusterConfig Managed, false, none)
          (.ok (clusterConfig Managed)), "", true⟩, by simp, rfl⟩,
    by rw [(processNextWorkItem_false_iff_shutdown.2 _).2]; rfl⟩

/-- The namespace `DeleteFunc` adds either nothing or the one key `workQueueKey`. -/
theorem addedKeys_namespace_delete (obj : Payload) :
    addedKeys (namespaceEventHandler.DeleteFunc obj).calls = [] ∨
    addedKeys (namespaceEventHandler.DeleteFunc obj).calls = [workQueueKey] := by
  cases obj with
  | namespacePtr ptr =>
    cases ptr with
    | none => simp [namespaceEventHandler, namespaceAddFunc, namespaceUpdateFunc, namespaceDeleteFunc,
          assertNamespace, checkNamespaceName, addedKeys]
    | some ns =>
      by_cases h : ns.Name = TargetNamespace <;>
        simp [namespaceEventHandler, namespaceAddFunc, namespaceUpdateFunc, namespaceDeleteFunc,
          assertNamespace, checkNamespaceName, addedKeys, h]
  | other kind =>
    simp [namespaceEventHandler, namespaceAddFunc, namespaceUpdateFunc, namespaceDeleteFunc,
          assertNamespace, assertDeletedFinalStateUnknown, addedKeys]
  | DeletedFinalStateUnknown key inner =>
    cases inner with
    | namespacePtr ptr =>
      cases ptr with
      | none =>
        simp [namespaceEventHandler, namespaceAddFunc, namespaceUpdateFunc, namespaceDeleteFunc,
          assertNamespace, assertDeletedFinalStateUnknown,
          checkNamespaceName, addedKeys]
      | some ns =>
        by_cases h : ns.Name = TargetNamespace <;>
          simp [namespaceEventHandler, namespaceAddFunc, namespaceUpdateFunc, namespaceDeleteFunc,
          assertNamespace, assertDeletedFinalStateUnknown,
            checkNamespaceName, addedKeys, h]
    | other kind =>
      simp [namespaceEventHandler, namespaceAddFunc, namespaceUpdateFunc, namespaceDeleteFunc,
          assertNamespace, assertDeletedFinalStateUnknown, addedKeys]
    | DeletedFinalStateUnknown key2 inner2 =>
      simp [namespaceEventHandler, namespaceAddFunc, namespaceUpdateFunc, namespaceDeleteFunc,
          assertNamespace, assertDeletedFinalStateUnknown, addedKeys]

/-- C7: a namespace Delete event whose payload is neither a Namespace pointer nor a
tombstone wrapping a Namespace pointer (a tombstone wrapping an object of another
type included) makes the namespace `DeleteFunc` return normally, without panic and
without any `queue.Add` call. -/
theorem namespace_delete_unresolvable_dropped (obj : Payload)
    (hns : ∀ ns, obj ≠ .namespacePtr ns)
    (htomb : ∀ key ns, obj ≠ .DeletedFinalStateUnknown key (.namespacePtr ns)) :
    (namespaceEventHandler.DeleteFunc obj).panicked = false ∧
    (namespaceEventHandler.DeleteFunc obj).calls.countP Call.isQueueAdd = 0 ∧
    addedKeys (namespaceEventHandler.DeleteFunc obj).calls = [] := by
  cases obj with
  | namespacePtr ns => exact absurd rfl (hns ns)
  | other kind =>
    simp [namespaceEventHandler, namespaceAddFunc, namespaceUpdateFunc, namespaceDeleteFunc,
          assertNamespace, assertDeletedFinalStateUnknown, addedKeys,
      Call.isQueueAdd]
  | DeletedFinalStateUnknown key inner =>
    cases inner with
    | namespacePtr ns => exact absurd rfl (htomb key ns)
    | other kind =>
      simp [namespaceEventHandler, namespaceAddFunc, namespaceUpdateFunc, namespaceDeleteFunc,
          assertNamespace, assertDeletedFinalStateUnknown, addedKeys,
        Call.isQueueAdd]
    | DeletedFinalStateUnknown key2 inner2 =>
      simp [namespaceEventHandler, namespaceAddFunc, namespaceUpdateFunc, namespaceDeleteFunc,
          assertNamespace, assertDeletedFinalStateUnknown, addedKeys,
        Call.isQueueAdd]

/-- Witness of C7: a tombstone wrapping a config map. -/
theorem namespace_delete_unresolvable_dropped_witness :
    (namespaceEventHandler.DeleteFunc
      (.DeletedFinalStateUnknown "ns/name" (.other "*v1.ConfigMap"))).panicked = false ∧
    addedKeys (namespaceEventHandler.DeleteFunc
      (.DeletedFinalStateUnknown "ns/name" (.other "*v1.ConfigMap"))).calls = [] :=
  have h := namespace_delete_unresolvable_dropped
    (.DeletedFinalStateUnknown "ns/name" (.other "*v1.ConfigMap"))
    (fun _ h => Payload.noConfusion h)
    (fun _ _ h => by simp at h)
  ⟨h.1, h.2.2⟩

/-- C8 as stated fails: a namespace Add event whose payload is not a Namespace makes the
handler call `queue.Add(workQueueKey)` and then panic on the nil `ns`; and a Delete
event whose payload is the nil Namespace pointer makes the handler panic. -/
theorem namespace_handler_filter_counterexample :
    assertNamespace (.other "*v1.ConfigMap") = (none, false) ∧
    namespaceEventHandler.AddFunc (.other "*v1.ConfigMap") =
      ⟨[.queueAdd workQueueKey], true⟩ ∧
    namespaceEventHandler.DeleteFunc (.namespacePtr none) = ⟨[], true⟩ := by
  refine ⟨rfl, ?_, ?_⟩
  · simp [namespaceEventHandler, namespaceAddFunc, namespaceUpdateFunc, namespaceDeleteFunc,
          assertNamespace, checkNamespaceName]
  · simp [namespaceEventHandler, namespaceAddFunc, namespaceUpdateFunc, namespaceDeleteFunc,
          assertNamespace, checkNamespaceName]

/-- C8 amended: for every namespace Delete event and every payload the handler enqueues
the dedup key (once) if and only if the payload resolves to a Namespace, directly or
through a tombstone, whose name is the target namespace, and otherwise enqueues
nothing; it does not crash unless the payload is the nil Namespace pointer, alone or
wrapped in a tombstone.  For an Add or Update event whose inspected object (for
Update the old one) is a Namespace (a non-nil pointer) the handler does not crash
and enqueues the dedup key if and only if the name is the target namespace.  For an
Add or Update event whose inspected object is not of the Namespace pointer type the
handler enqueues the dedup key once. -/
theorem namespace_handler_filter :
    (∀ obj : Payload,
      (obj ≠ .namespacePtr none →
        (∀ key, obj ≠ .DeletedFinalStateUnknown key (.namespacePtr none)) →
        (namespaceEventHandler.DeleteFunc obj).panicked = false) ∧
      (addedKeys (namespaceEventHandler.DeleteFunc obj).calls = [workQueueKey] ↔
        ∃ ns : Namespace, ns.Name = TargetNamespace ∧
          (obj = .namespacePtr (some ns) ∨
            ∃ key, obj = .DeletedFinalStateUnknown key (.namespacePtr (some ns)))) ∧
      (addedKeys (namespaceEventHandler.DeleteFunc obj).calls = [] ↔
        ¬ ∃ ns : Namespace, ns.Name = TargetNamespace ∧
          (obj = .namespacePtr (some ns) ∨
            ∃ key, obj = .DeletedFinalStateUnknown key (.namespacePtr (some ns))))) ∧
    (∀ (ns : Namespace) (new : Payload),
      namespaceEventHandler.AddFunc (.namespacePtr (some ns)) =
        ⟨if ns.Name = TargetNamespace then [.queueAdd workQueueKey] else [], false⟩ ∧
      namespaceEventHandler.UpdateFunc (.namespacePtr (some ns)) new =
        ⟨if ns.Name = TargetNamespace then [.queueAdd workQueueKey] else [], false⟩) ∧
    (∀ obj new : Payload, (∀ ptr, obj ≠ .namespacePtr ptr) →
      addedKeys (namespaceEventHandler.AddFunc obj).calls = [workQueueKey] ∧
      addedKeys (namespaceEventHandler.UpdateFunc obj new).calls = [workQueueKey]) := by
  refine ⟨?_, ?_, ?_⟩
  · intro obj
    cases obj with
    | namespacePtr ptr =>
      cases ptr with
      | none => simp [namespaceEventHandler, namespaceAddFunc, namespaceUpdateFunc, namespaceDeleteFunc,
          assertNamespace, checkNamespaceName, addedKeys]
      | some ns =>
        by_cases h : ns.Name = TargetNamespace <;>
          simp [namespaceEventHandler, namespaceAddFunc, namespaceUpdateFunc, namespaceDeleteFunc,
          assertNamespace, checkNamespaceName, addedKeys, h]
    | other kind =>
      simp [namespaceEventHandler, namespaceAddFunc, namespaceUpdateFunc, namespaceDeleteFunc,
          assertNamespace, assertDeletedFinalStateUnknown, addedKeys]
    | DeletedFinalStateUnknown key inner =>
      cases inner with
      | namespacePtr ptr =>
        cases ptr with
        | none =>
          simp [namespaceEventHandler, namespaceAddFunc, namespaceUpdateFunc, namespaceDeleteFunc,
          assertNamespace, assertDeletedFinalStateUnknown,
            checkNamespaceName, addedKeys]
        | some ns =>
          by_cases h : ns.Name = TargetNamespace <;>
            simp [namespaceEventHandler, namespaceAddFunc, namespaceUpdateFunc, namespaceDeleteFunc,
          assertNamespace, assertDeletedFinalStateUnknown,
              checkNamespaceName, addedKeys, h]
      | other kind =>
        simp [namespaceEventHandler, namespaceAddFunc, namespaceUpdateFunc, namespaceDeleteFunc,
          assertNamespace, assertDeletedFinalStateUnknown, addedKeys]
      | DeletedFinalStateUnknown key2 inner2 =>
        simp [namespaceEventHandler, namespaceAddFunc, namespaceUpdateFunc, namespaceDeleteFunc,
          assertNamespace, assertDeletedFinalStateUnknown, addedKeys]
  · intro ns new
    by_cases h : ns.Name = TargetNamespace <;>
      simp [namespaceEventHandler, namespaceAddFunc, namespaceUpdateFunc, namespaceDeleteFunc,
          assertNamespace, checkNamespaceName, h]
  · intro obj new hns
    cases obj with
    | namespacePtr ptr => exact absurd rfl (hns ptr)
    | other kind =>
      simp [namespaceEventHandler, namespaceAddFunc, namespaceUpdateFunc, namespaceDeleteFunc,
          assertNamespace, checkNamespaceName, addedKeys]
    | DeletedFinalStateUnknown key inner =>
      simp [namespaceEventHandler, namespaceAddFunc, namespaceUpdateFunc, namespaceDeleteFunc,
          assertNamespace, checkNamespaceName, addedKeys]

/-- Witness of C8 amended: the Delete of a tombstone wrapping the target namespace
enqueues the key and does not crash; an Add of a config map enqueues the key as
well. -/
theorem namespace_handler_filter_witness :
    addedKeys (namespaceEventHandler.DeleteFunc
      (.DeletedFinalStateUnknown "openshift-kube-scheduler"
        (namespaceNamed TargetNamespace))).calls = [workQueueKey] ∧
    (namespaceEventHandler.DeleteFunc
      (.DeletedFinalStateUnknown "openshift-kube-scheduler"
        (namespaceNamed TargetNamespace))).panicked = false ∧
    addedKeys (namespaceEventHandler.AddFunc (.other "*v1.ConfigMap")).calls = [workQueueKey] :=
  ⟨(namespace_handler_filter.1 _).2.1.mpr
      ⟨⟨TargetNamespace⟩, rfl, Or.inr ⟨"openshift-kube-scheduler", rfl⟩⟩,
    (namespace_handler_filter.1
      (.DeletedFinalStateUnknown "openshift-kube-scheduler" (namespaceNamed TargetNamespace))).1
      (fun h => Payload.noConfusion h) (fun _ h => by simp [namespaceNamed] at h),
    (namespace_handler_filter.2.2 (.other "*v1.ConfigMap") (.other "*v1.ConfigMap")
      (fun _ h => Payload.noConfusion h)).1⟩

/-- The cache sync gate returns true at poll `t` only when every predicate it was
given answers true at `t`, and `t` is no later than the stop signal. -/
theorem WaitForCacheSync_some (stopCh : Nat) (cacheSyncs : List InformerSynced) (t : Nat)
    (h : WaitForCacheSync stopCh cacheSyncs = some t) :
    (∀ synced ∈ cacheSyncs, synced t = true) ∧ t ≤ stopCh := by
  unfold WaitForCacheSync at h
  have h1 := List.find?_some h
  have h2 := List.mem_of_find?_eq_some h
  rw [List.mem_range] at h2
  rw [List.all_eq_true] at h1
  exact ⟨h1, by omega⟩

/-- The cache sync gate returns false exactly when at no poll up to the stop signal
every predicate answers true. -/
theorem WaitForCacheSync_none (stopCh : Nat) (cacheSyncs : List InformerSynced) :
    WaitForCacheSync stopCh cacheSyncs = none ↔
      ∀ t ≤ stopCh, ¬ ∀ synced ∈ cacheSyncs, synced t = true := by
  unfold WaitForCacheSync
  rw [List.find?_eq_none]
  constructor
  · intro h t ht hall
    have := h t (List.mem_range.mpr (by omega))
    rw [List.all_eq_true] at this
    exact this hall
  · intro h t ht
    rw [List.mem_range] at ht
    rw [List.all_eq_true]
    exact h t (by omega)

/-- C9 as stated fails: with the feature-gate informer never synced (and subscribed to),
`Run` starts the worker at the first poll, the scheduler informer being synced. -/
theorem run_waits_for_every_informer_counterexample :
    featureGatesNeverSynced.FeatureGates ∈ featureGatesNeverSynced.subscribed ∧
    featureGatesNeverSynced.FeatureGates = (fun _ => false) ∧
    (Run (NewTargetConfigReconciler featureGatesNeverSynced) 5).workerStarted = some 0 ∧
    Call.goRunWorker ∈ (Run (NewTargetConfigReconciler featureGatesNeverSynced) 5).calls := by
  refine ⟨by simp [WatchedInformers.subscribed], rfl, by decide, by decide⟩

/-- C9 amended: `Run` starts the worker only after the sync predicate of the scheduler
config informer (`SchedulingCacheSync`, the one predicate it waits on) has reported
completion; when that predicate does not report completion before the stop signal,
`Run` reports the error "scheduler caches did not sync" and returns (shutting the
queue down) without starting the worker. -/
theorem run_waits_for_scheduler_informer (c : CacheSyncs) (stopCh : Nat) :
    (∀ t, (Run c stopCh).workerStarted = some t →
      c.SchedulingCacheSync t = true ∧ t ≤ stopCh) ∧
    (Call.goRunWorker ∈ (Run c stopCh).calls ↔
      ∃ t, t ≤ stopCh ∧ c.SchedulingCacheSync t = true) ∧
    ((∀ t, t ≤ stopCh → c.SchedulingCacheSync t = false) →
      Run c stopCh =
        ⟨[.klogInfof "Starting TargetConfigReconciler",
          .HandleError ⟨"scheduler caches did not sync"⟩,
          .klogInfof "Shutting down TargetConfigReconciler", .queueShutDown], none⟩) := by
  have hnone := WaitForCacheSync_none stopCh [c.SchedulingCacheSync]
  cases hw : WaitForCacheSync stopCh [c.SchedulingCacheSync] with
  | none =>
    have hn := hnone.mp hw
    simp only [List.mem_singleton, forall_eq, Bool.not_eq_true] at hn
    refine ⟨?_, ?_, ?_⟩
    · intro t ht
      simp [Run, hw] at ht
    · simp only [Run, hw]
      constructor
      · intro h
        simp at h
      · rintro ⟨t, ht, hs⟩
        rw [hn t ht] at hs
        exact absurd hs (by simp)
    · intro _
      simp [Run, hw]
  | some t0 =>
    have hs := WaitForCacheSync_some stopCh [c.SchedulingCacheSync] t0 hw
    simp only [List.mem_singleton, forall_eq] at hs
    refine ⟨?_, ?_, ?_⟩
    · intro t ht
      simp only [Run, hw, Option.some.injEq] at ht
      subst ht
      exact hs
    · simp only [Run, hw]
      constructor
      · intro _
        exact ⟨t0, hs.2, hs.1⟩
      · intro _
        simp
    · intro hall
      rw [hall t0 hs.2] at hs
      exact absurd hs.1 (by simp)

/-- Witness of C9 amended: the scheduler informer syncs at poll 2; with the stop signal
after poll 5 the worker starts at poll 2, with the stop signal after poll 1 it never
starts and the error is reported. -/
theorem run_waits_for_scheduler_informer_witness :
    (schedulersSyncedAtTwo.SchedulingCacheSync 2 = true ∧ 2 ≤ 5) ∧
    Run schedulersSyncedAtTwo 1 =
      ⟨[.klogInfof "Starting TargetConfigReconciler",
        .HandleError ⟨"scheduler caches did not sync"⟩,
        .klogInfof "Shutting down TargetConfigReconciler", .queueShutDown], none⟩ :=
  ⟨(run_waits_for_scheduler_informer schedulersSyncedAtTwo 5).1 2 (by decide),
    (run_waits_for_scheduler_informer schedulersSyncedAtTwo 1).2.2
      (fun t ht => by
        have : t = 0 ∨ t = 1 := by omega
        rcases this with h | h <;> subst h <;> rfl)⟩

/-- Every callback adds either nothing or the one key `workQueueKey`, once. -/
theorem addedKeys_dispatch (e : Event) :
    addedKeys (dispatch e).calls = if enqueues e then [workQueueKey] else [] := by
  have hadd : ∀ obj : Payload,
      addedKeys (namespaceEventHandler.AddFunc obj).calls = [] ∨
      addedKeys (namespaceEventHandler.AddFunc obj).calls = [workQueueKey] := by
    intro obj
    cases obj with
    | namespacePtr ptr =>
      cases ptr with
      | none => simp [namespaceEventHandler, namespaceAddFunc, namespaceUpdateFunc, namespaceDeleteFunc,
          assertNamespace, checkNamespaceName, addedKeys]
      | some ns =>
        by_cases h : ns.Name = TargetNamespace <;>
          simp [namespaceEventHandler, namespaceAddFunc, namespaceUpdateFunc, namespaceDeleteFunc,
          assertNamespace, checkNamespaceName, addedKeys, h]
    | other kind =>
      simp [namespaceEventHandler, namespaceAddFunc, namespaceUpdateFunc, namespaceDeleteFunc,
          assertNamespace, checkNamespaceName, addedKeys]
    | DeletedFinalStateUnknown key inner =>
      simp [namespaceEventHandler, namespaceAddFunc, namespaceUpdateFunc, namespaceDeleteFunc,
          assertNamespace, checkNamespaceName, addedKeys]
  have h : addedKeys (dispatch e).calls = [] ∨ addedKeys (dispatch e).calls = [workQueueKey] := by
    obtain ⟨fromNamespaces, operation, obj, new⟩ := e
    cases fromNamespaces with
    | false => cases operation <;> simp [dispatch, Event.handler, eventHandler, addedKeys]
    | true =>
      cases operation with
      | Add => simpa [dispatch, Event.handler] using hadd obj
      | Update =>
        have hupd : namespaceEventHandler.UpdateFunc obj new =
            namespaceEventHandler.AddFunc obj := rfl
        simpa [dispatch, Event.handler, hupd] using hadd obj
      | Delete => simpa [dispatch, Event.handler] using addedKeys_namespace_delete obj
  unfold enqueues
  rcases h with h | h <;> simp [h]

/-- Arrival of events at a queue that holds nothing or the one key `workQueueKey`:
afterwards it holds `workQueueKey` once when it held it before or some event
enqueued, and nothing otherwise. -/
theorem deliver_pending (evs : List Event) :
    ∀ q q2 : WorkQueue, (q.pending = [] ∨ q.pending = [workQueueKey]) →
      deliver q evs = some q2 →
      q2.pending =
        if q.pending = [workQueueKey] ∨ evs.any enqueues = true then [workQueueKey] else [] := by
  induction evs with
  | nil =>
    intro q q2 hq h
    simp only [deliver, Option.some.injEq] at h
    subst h
    rcases hq with hq | hq <;> simp [hq]
  | cons e rest ih =>
    intro q q2 hq h
    unfold deliver at h
    simp only at h
    split_ifs at h with hp
    rw [addedKeys_dispatch e] at h
    by_cases he : enqueues e = true
    · simp only [he, if_true, List.foldl_cons, List.foldl_nil] at h
      have hpush : (q.push workQueueKey).pending = [workQueueKey] := by
        rcases hq with hq | hq <;> simp [WorkQueue.push, hq]
      have := ih _ q2 (Or.inr hpush) h
      simp [this, hpush, he]
    · simp only [he, Bool.false_eq_true, if_false, List.foldl_nil] at h
      have := ih q q2 hq h
      simp [this, he]

/-- C10 as stated fails: one event, the Add of the namespace "default", arrives at the
empty queue and leaves no pending key, so no reconcile invocation follows. -/
theorem single_key_dedup_counterexample :
    [defaultNamespaceAdd].length = 1 ∧
    deliver ⟨[]⟩ [defaultNamespaceAdd] = some ⟨[]⟩ ∧
    syncInvocations (drain (cycleWith (.ok (clusterConfig Managed))
      (clusterConfig Managed, false, none) (.ok (clusterConfig Managed))) ⟨[]⟩) = 0 := by
  refine ⟨rfl, by decide, rfl⟩

/-- C10 amended: every key put on the queue is the sentinel `workQueueKey`: each generic
`eventHandler` callback pushes exactly that key once for any payload, the namespace
handler pushes only that key, and `processNextWorkItem` makes no `Add` call and
re-pushes (rate limited) only the key it popped.  Consequently, over a deduplicating
queue, any sequence of N ≥ 1 events served by the generic handler, arriving at the
empty queue before the worker pops, leaves exactly one pending key and yields
exactly one reconcile invocation; and any sequence of events none of whose callbacks
crashes leaves exactly one pending key when at least one event enqueued, and none
otherwise. -/
theorem single_key_dedup :
    (∀ e : Event,
      (∀ key ∈ addedKeys (dispatch e).calls, key = workQueueKey) ∧
      (e.fromNamespaces = false → dispatch e = ⟨[.queueAdd workQueueKey], false⟩)) ∧
    (∀ (c : TargetConfigReconciler) (dsKey : String) (quit : Bool),
      ∀ x ∈ (processNextWorkItem c dsKey quit).calls,
        x.isQueueAdd = false ∧ ∀ key, x = .queueAddRateLimited key → key = dsKey) ∧
    (∀ evs : List Event, evs ≠ [] → (∀ e ∈ evs, e.fromNamespaces = false) →
      deliver ⟨[]⟩ evs = some ⟨[workQueueKey]⟩) ∧
    (∀ (evs : List Event) (q : WorkQueue), deliver ⟨[]⟩ evs = some q →
      q.pending = if evs.any enqueues = true then [workQueueKey] else []) ∧
    WorkQueue.pop ⟨[workQueueKey]⟩ = some (workQueueKey, ⟨[]⟩) ∧
    (∀ c : TargetConfigReconciler, syncInvocations (drain c ⟨[workQueueKey]⟩) = 1) := by
  have hgeneric : ∀ e : Event, e.fromNamespaces = false →
      dispatch e = ⟨[.queueAdd workQueueKey], false⟩ := by
    intro e he
    obtain ⟨fromNamespaces, operation, obj, new⟩ := e
    simp only at he
    subst he
    cases operation <;> simp [dispatch, Event.handler, eventHandler]
  refine ⟨?_, ?_, ?_, ?_, rfl, ?_⟩
  · intro e
    refine ⟨?_, hgeneric e⟩
    intro key hkey
    rw [addedKeys_dispatch e] at hkey
    split_ifs at hkey
    · simpa using hkey
    · simp at hkey
  · intro c dsKey quit x hx
    have hsync : ∀ y ∈ (sync c).calls,
        y.isQueueAdd = false ∧ ∀ key, y = .queueAddRateLimited key → key = dsKey := by
      intro y hy
      have h := (sync_calls_not_queue c y hy).1
      cases y <;> simp_all [Call.isQueueCall, Call.isQueueAdd]
    unfold processNextWorkItem at hx
    cases quit with
    | true =>
      simp at hx
      subst hx
      simp [Call.isQueueAdd]
    | false =>
      cases herr : (sync c).err with
      | none =>
        simp [herr] at hx
        rcases hx with h | h | h | h | h
        · subst h; simp [Call.isQueueAdd]
        · subst h; simp [Call.isQueueAdd]
        · exact hsync x h
        · subst h; simp [Call.isQueueAdd]
        · subst h; simp [Call.isQueueAdd]
      | some e =>
        simp [herr] at hx
        rcases hx with h | h | h | h | h | h
        · subst h; simp [Call.isQueueAdd]
        · subst h; simp [Call.isQueueAdd]
        · exact hsync x h
        · subst h; simp [Call.isQueueAdd]
        · subst h; simp [Call.isQueueAdd]
        · subst h; simp [Call.isQueueAdd]
  · intro evs hne hall
    have hdel : ∀ (l : List Event) (q : WorkQueue), (∀ e ∈ l, e.fromNamespaces = false) →
        ∃ q2, deliver q l = some q2 := by
      intro l
      induction l with
      | nil => intro q _; exact ⟨q, rfl⟩
      | cons e rest ih =>
        intro q hl
        unfold deliver
        rw [hgeneric e (hl e (List.mem_cons_self _ _))]
        simp only [Bool.false_eq_true, if_false]
        exact ih _ (fun e2 he2 => hl e2 (List.mem_cons_of_mem _ he2))
    obtain ⟨q2, hq2⟩ := hdel evs ⟨[]⟩ hall
    have hp := deliver_pending evs ⟨[]⟩ q2 (Or.inl rfl) hq2
    have hany : evs.any enqueues = true := by
      cases evs with
      | nil => exact absurd rfl hne
      | cons e rest =>
        have : enqueues e = true := by
          unfold enqueues
          rw [hgeneric e (hall e (List.mem_cons_self _ _))]
          rfl
        simp [this]
    rw [hq2]
    cases q2 with
    | mk pending =>
      simp only [hany, or_true, if_true] at hp
      rw [hp]
  · intro evs q hq
    have hp := deliver_pending evs ⟨[]⟩ q (Or.inl rfl) hq
    simpa using hp
  · intro c
    have h := syncInvocations_processNextWorkItem c workQueueKey false
    simp only [Bool.false_eq_true, if_false] at h
    simp only [drain, drainPending, List.append_nil]
    exact h

/-- Witness of C10 amended: five rapid Update events of a config map leave the one key
pending, and working it off takes one `sync` invocation. -/
theorem single_key_dedup_witness :
    deliver ⟨[]⟩ (List.replicate 5 configMapUpdate) = some ⟨[workQueueKey]⟩ ∧
    syncInvocations (drain (cycleWith (.ok (clusterConfig Managed))
      (clusterConfig Managed, false, none) (.ok (clusterConfig Managed))) ⟨[workQueueKey]⟩) = 1 :=
  ⟨single_key_dedup.2.2.1 (List.replicate 5 configMapUpdate) (by simp [List.replicate])
      (by
        intro e he
        rw [List.eq_of_mem_replicate he]
        rfl),
    single_key_dedup.2.2.2.2.2 _⟩

end Operator
